import Mathlib

/-!
Shallow embedding of `Modules/_billiard/semaphore.c` (the billiard SemLock
type): the process-local lock record, the Unix acquire/release paths, the
emulated timed-wait poll loop `Billiard_sem_timedwait_save`, the Windows
timeout-to-milliseconds computation, and the introspection / lifecycle
helpers (`_count`, `_is_mine`, `_get_value`, `_after_fork`, `_rebuild`,
`Billiard_newsemlockobject`).

Modelling conventions:
* C `int` / `long` fields are modelled as `ℤ`; the kernel semaphore's
  counter (always non-negative) as `ℕ`.
* The kernel object is modelled next to the lock record in a `World`
  (`osValue` = the semaphore's current counter, `posts` = how many
  `sem_post` calls this process has issued, used to observe post counts).
* OS calls that depend on the outside world (`sem_wait`, the scheduler,
  `gettimeofday` inside the poll loop, signal arrival) are oracles passed
  as explicit arguments.  `sem_trywait` is determined by `osValue`.
* `PyArg_ParseTupleAndKeywords` / `PyFloat_AsDouble` argument marshalling
  is outside the model: arguments arrive already parsed (`Option ℚ` for
  `timeout`).  `gettimeofday` at the start of acquire is modelled as
  succeeding, returning the `now` argument.
* The C double→long cast on the Unix timeout path is modelled as 64-bit
  two-complement wraparound (`toLong`); C makes it undefined when the
  value does not fit, wraparound is the concrete stand-in.
-/

namespace Billiard

/-- `enum { RECURSIVE_MUTEX, SEMAPHORE }` -/
inductive Kind where
  | recursiveMutex
  | semaphore
deriving DecidableEq, Repr

/-- `BilliardSemLockObject`: handle, last_tid, count, maxvalue, kind, name. -/
structure SemLock where
  handle : ℕ
  last_tid : ℤ
  count : ℤ
  maxvalue : ℤ
  kind : Kind
  name : Option String
deriving DecidableEq, Repr

/-- The lock record together with the kernel semaphore it names.
`osValue` is the kernel counter, `posts` counts `sem_post` calls issued by
this process (so theorems can speak about how often the OS object was
posted). -/
structure World where
  lock : SemLock
  osValue : ℕ
  posts : ℕ
deriving DecidableEq, Repr

/-- `ISMINE(o)`: `o->count > 0 && PyThread_get_thread_ident() == o->last_tid`. -/
def isMine (tid : ℤ) (l : SemLock) : Prop :=
  0 < l.count ∧ tid = l.last_tid

instance (tid : ℤ) (l : SemLock) : Decidable (isMine tid l) :=
  inferInstanceAs (Decidable (0 < l.count ∧ tid = l.last_tid))

/-- Errors the acquire path can raise (OverflowError, KeyboardInterrupt
via `PyErr_CheckSignals`, OSError). -/
inductive AcqErr where
  | argumentOverflow
  | interrupted
  | osError
deriving DecidableEq, Repr

/-- Errors the release path can raise (AssertionError for a foreign
release of a recursive lock, ValueError for over-release, OSError). -/
inductive RelErr where
  | ownershipError
  | overReleased
  | osError
deriving DecidableEq, Repr

/-- Outcome of one OS wait primitive after the EINTR retry loop:
acquired a unit / unavailable (EAGAIN, ETIMEDOUT) / interrupted by an
actual cancellation signal / other OS failure. -/
inductive OSRes where
  | acquired
  | unavail
  | eintrCancel
  | fail
deriving DecidableEq, Repr

/-- `struct timeval` (seconds, microseconds). -/
structure TV where
  sec : ℤ
  usec : ℤ
deriving DecidableEq, Repr

/-- `struct timespec` (seconds, nanoseconds). -/
structure Timespec where
  tv_sec : ℤ
  tv_nsec : ℤ
deriving DecidableEq, Repr

/-- 64-bit two-complement wraparound: stand-in for C `(long)` conversion
of an out-of-range value (undefined behaviour in C). -/
def toLong (n : ℤ) : ℤ :=
  (n + 2 ^ 63) % 2 ^ 64 - 2 ^ 63

/-- The Unix deadline computation in `Billiard_semlock_acquire`
(semaphore.c lines 290-307):
`if (timeout < 0.0) timeout = 0.0;` then
`sec = (long) timeout; nsec = (long) (1e9 * (timeout - sec) + 0.5);`
`deadline.tv_sec = now.tv_sec + sec;`
`deadline.tv_nsec = now.tv_usec * 1000 + nsec;`
`deadline.tv_sec += deadline.tv_nsec / 1000000000;`
`deadline.tv_nsec %= 1000000000;`
The clamped timeout is non-negative, so the double→long truncations are
floors; no overflow test of any kind appears on this path. -/
def unixComputeDeadline (timeout0 : ℚ) (now : TV) : Timespec :=
  let timeout := if timeout0 < 0 then 0 else timeout0
  let sec : ℤ := toLong ⌊timeout⌋
  let nsec : ℤ := toLong ⌊(1000000000 : ℚ) * (timeout - (sec : ℚ)) + 1 / 2⌋
  let s0 : ℤ := now.sec + sec
  let n0 : ℤ := now.usec * 1000 + nsec
  { tv_sec := s0 + n0 / 1000000000, tv_nsec := n0 % 1000000000 }

/-- Result of the emulated timed wait `Billiard_sem_timedwait_save`:
`ok` = 0, `timedout` = MP_STANDARD_ERROR with errno ETIMEDOUT,
`interrupted` = MP_EXCEPTION_HAS_BEEN_SET with errno EINTR,
`outOfFuel` = artificial cutoff of the unbounded loop (never produced by
any run long enough to reach one of the source's exits). -/
inductive TWRes where
  | ok
  | timedout
  | interrupted
  | outOfFuel
deriving DecidableEq, Repr

/-- The deadline test in the poll loop:
`tvdeadline.tv_sec < now.tv_sec || (tvdeadline.tv_sec == now.tv_sec &&
tvdeadline.tv_usec <= now.tv_usec)`. -/
def tvDeadlinePassed (dl now : TV) : Prop :=
  dl.sec < now.sec ∨ (dl.sec = now.sec ∧ dl.usec ≤ now.usec)

instance (dl now : TV) : Decidable (tvDeadlinePassed dl now) :=
  inferInstanceAs (Decidable (_ ∨ _))

/-- `difference = (tvdeadline.tv_sec - now.tv_sec) * 1000000 +
(tvdeadline.tv_usec - now.tv_usec)`. -/
def tvDifference (dl now : TV) : ℤ :=
  (dl.sec - now.sec) * 1000000 + (dl.usec - now.usec)

/-- The two reassignments of `delay` in the poll loop body:
`if (delay > 20000) delay = 20000; if (delay > difference)
delay = difference;` — the value actually slept. -/
def cappedDelay (delay difference : ℤ) : ℤ :=
  let d1 := if 20000 < delay then 20000 else delay
  if difference < d1 then difference else d1

/-- The poll loop of `Billiard_sem_timedwait_save` (lines 220-264).
Per iteration `k`: `sem_trywait` (success given by the oracle `avail k`;
failure is always EAGAIN in the model), `gettimeofday` (`nowAt k`),
deadline test, `difference` computation, the two delay caps
(20000 µs and `difference`, see `cappedDelay`), the sleep (recorded in
the returned list), the `PyErr_CheckSignals` test (`sig k`), and the
loop increment `delay += 1000` applied to the capped delay.  `fuel`
bounds the number of iterations so the model is a total function; the
returned list holds the microsecond durations passed to `select`. -/
def timedwaitAux (avail : ℕ → Bool) (nowAt : ℕ → TV) (sig : ℕ → Bool)
    (dl : TV) : ℕ → ℕ → ℤ → TWRes × List ℤ
  | 0, _, _ => (TWRes.outOfFuel, [])
  | fuel + 1, k, delay =>
    if avail k then (TWRes.ok, [])
    else
      let now := nowAt k
      if tvDeadlinePassed dl now then (TWRes.timedout, [])
      else
        let d2 := cappedDelay delay (tvDifference dl now)
        if sig k then (TWRes.interrupted, [d2])
        else
          let r := timedwaitAux avail nowAt sig dl fuel (k + 1) (d2 + 1000)
          (r.1, d2 :: r.2)

/-- `Billiard_sem_timedwait_save` (lines 209-265): converts the timespec
deadline to a timeval (`tv_usec = tv_nsec / 1000`) and runs the poll
loop starting at `delay = 0`. -/
def sem_timedwait_save (avail : ℕ → Bool) (nowAt : ℕ → TV)
    (sig : ℕ → Bool) (deadline : Timespec) (fuel : ℕ) : TWRes × List ℤ :=
  timedwaitAux avail nowAt sig
    { sec := deadline.tv_sec, usec := deadline.tv_nsec / 1000 } fuel 0 0

/-- The dispatch on the wait result at the end of the Unix
`Billiard_semlock_acquire` (lines 322-334): EAGAIN / ETIMEDOUT →
`False`, EINTR after a real signal → error, other failures → OSError;
on success `++self->count; self->last_tid = PyThread_get_thread_ident()`
(the acquired unit leaves the kernel counter). -/
def acquireFinish (tid : ℤ) (w : World) : OSRes → Except AcqErr (Bool × World)
  | OSRes.acquired =>
    Except.ok (true,
      { lock := { w.lock with count := w.lock.count + 1, last_tid := tid },
        osValue := w.osValue - 1, posts := w.posts })
  | OSRes.unavail => Except.ok (false, w)
  | OSRes.eintrCancel => Except.error AcqErr.interrupted
  | OSRes.fail => Except.error AcqErr.osError

/-- The Unix `Billiard_semlock_acquire` (lines 269-335).
Arguments: parsed `block` / `timeout`, `now` from `gettimeofday`,
the outcome `waitO` of a plain `sem_wait` (after its EINTR retry loop),
the poll-loop oracles, the calling thread id and the world.
Order follows the source: recursion fast path, deadline computation when
a timeout was supplied, then exactly one of `sem_wait` / `sem_trywait` /
`sem_timedwait` (the emulated poll loop — the `#define` in this source is
unconditional), then the errno dispatch and the bookkeeping update
`++count; last_tid = tid` on success. -/
def semlockAcquire (blocking : Bool) (timeout_obj : Option ℚ) (now : TV)
    (waitO : OSRes) (pollAvail : ℕ → Bool) (pollNow : ℕ → TV)
    (pollSig : ℕ → Bool) (pollFuel : ℕ) (tid : ℤ) (w : World) :
    Except AcqErr (Bool × World) :=
  if w.lock.kind = Kind.recursiveMutex ∧ isMine tid w.lock then
    Except.ok (true, { w with lock := { w.lock with count := w.lock.count + 1 } })
  else
    let deadline : Timespec :=
      match timeout_obj with
      | none => { tv_sec := 0, tv_nsec := 0 }
      | some t => unixComputeDeadline t now
    let res : OSRes :=
      if blocking = true ∧ timeout_obj = none then waitO
      else if blocking = false then
        (if 0 < w.osValue then OSRes.acquired else OSRes.unavail)
      else
        match (sem_timedwait_save pollAvail pollNow pollSig deadline pollFuel).1 with
        | TWRes.ok => OSRes.acquired
        | TWRes.timedout => OSRes.unavail
        | TWRes.interrupted => OSRes.eintrCancel
        | TWRes.outOfFuel => OSRes.fail
    acquireFinish tid w res

/-- `sem_post(self->handle)` followed by `--self->count` (the shared tail
of both release variants). -/
def semPostDec (w : World) : Except RelErr World :=
  Except.ok
    { lock := { w.lock with count := w.lock.count - 1 },
      osValue := w.osValue + 1, posts := w.posts + 1 }

/-- The Unix `Billiard_semlock_release` (lines 337-395), in the
configuration where `sem_getvalue` works (no HAVE_BROKEN_SEM_GETVALUE).
Recursive mutex: ownership test, pure decrement while `count > 1`,
otherwise fall through to the post.  Semaphore: the `sem_getvalue`
overflow guard, then the post.  Note the guard sits only in the
semaphore branch. -/
def semlockRelease (tid : ℤ) (w : World) : Except RelErr World :=
  if w.lock.kind = Kind.recursiveMutex then
    if ¬ isMine tid w.lock then Except.error RelErr.ownershipError
    else if 1 < w.lock.count then
      Except.ok { w with lock := { w.lock with count := w.lock.count - 1 } }
    else
      semPostDec w
  else
    if w.lock.maxvalue ≤ (w.osValue : ℤ) then Except.error RelErr.overReleased
    else semPostDec w

/-- The Unix `Billiard_semlock_release` in the HAVE_BROKEN_SEM_GETVALUE
configuration (lines 353-374): the guard is a `sem_trywait`/undo probe,
performed only when `maxvalue == 1`; a successful probe means the
semaphore was unlocked, so the unit is posted back and the release is
refused.  The recursive-mutex branch is identical to the other variant. -/
def semlockReleaseBrokenGV (tid : ℤ) (w : World) : Except RelErr World :=
  if w.lock.kind = Kind.recursiveMutex then
    if ¬ isMine tid w.lock then Except.error RelErr.ownershipError
    else if 1 < w.lock.count then
      Except.ok { w with lock := { w.lock with count := w.lock.count - 1 } }
    else
      semPostDec w
  else
    if w.lock.maxvalue = 1 then
      if w.osValue = 0 then semPostDec w
      else Except.error RelErr.overReleased
    else semPostDec w

/-- `Billiard_newsemlockobject` (lines 403-419): fresh record with
`count = 0`, `last_tid = 0`. -/
def newsemlockobject (handle : ℕ) (kind : Kind) (maxvalue : ℤ)
    (name : Option String) : SemLock :=
  { handle := handle, kind := kind, count := 0, last_tid := 0,
    maxvalue := maxvalue, name := name }

/-- `Billiard_semlock_rebuild` (lines 470-490, Unix): when a name is
supplied the semaphore is re-opened (`semOpen`, `none` = SEM_FAILED),
otherwise the transmitted handle is wrapped directly; either way the
record comes from `Billiard_newsemlockobject`. -/
def semlockRebuild (semOpen : String → Option ℕ) (handle : ℕ) (kind : Kind)
    (maxvalue : ℤ) (name : Option String) : Option SemLock :=
  match name with
  | some nm =>
    match semOpen nm with
    | none => none
    | some h => some (newsemlockobject h kind maxvalue (some nm))
  | none => some (newsemlockobject handle kind maxvalue none)

/-- `Billiard_semlock_count`: returns the local `count`. -/
def semlockCount (l : SemLock) : ℤ := l.count

/-- `Billiard_semlock_getvalue` (lines 514-530, working `sem_getvalue`):
`gv` is what the platform call reported (`none` = the call failed); a
negative report (some POSIX implementations count waiting threads that
way) is clamped to 0 before being returned. -/
def semlockGetvalue (gv : Option ℤ) : Except RelErr ℤ :=
  match gv with
  | none => Except.error RelErr.osError
  | some sval => Except.ok (if sval < 0 then 0 else sval)

/-- `Billiard_semlock_afterfork` (lines 553-558): `self->count = 0`. -/
def semlockAfterfork (w : World) : World :=
  { w with lock := { w.lock with count := 0 } }

/-- One non-blocking `acquire(block=False)` call, keeping the new world
only when it returned `True` (scenario helper for iterated calls; the
oracles are irrelevant on this path and are fixed to failure values). -/
def acquireTry (tid : ℤ) (w : World) : Option World :=
  match semlockAcquire false none (TV.mk 0 0) OSRes.fail (fun _ => false)
      (fun _ => TV.mk 0 0) (fun _ => false) 0 tid w with
  | Except.ok (true, w2) => some w2
  | _ => none

/-- One `release()` call, keeping the new world when it succeeded. -/
def releaseO (tid : ℤ) (w : World) : Option World :=
  match semlockRelease tid w with
  | Except.ok w2 => some w2
  | Except.error _ => none

/-- `n` successful non-blocking acquires in a row by thread `tid`. -/
def acquiresN : ℕ → ℤ → World → Option World
  | 0, _, w => some w
  | n + 1, tid, w => (acquireTry tid w).bind (acquiresN n tid)

/-- `n` successful releases in a row by thread `tid`. -/
def releasesN : ℕ → ℤ → World → Option World
  | 0, _, w => some w
  | n + 1, tid, w => (releaseO tid w).bind (releasesN n tid)

/-- `INFINITE` (Win32): 0xFFFFFFFF. -/
def INFINITE : ℕ := 4294967295

/-- The Windows timeout computation in `Billiard_semlock_acquire`
(lines 76-93): non-blocking → 0 ms; no timeout → INFINITE; otherwise
convert to milliseconds, clamp negatives to 0, refuse with an
OverflowError once `timeout >= 0.5 * INFINITE` (≈ 25 days), else round
to the nearest DWORD. -/
def windowsComputeMsecs (blocking : Bool) (timeout_obj : Option ℚ) :
    Except AcqErr ℕ :=
  if blocking = false then Except.ok 0
  else
    match timeout_obj with
    | none => Except.ok INFINITE
    | some t0 =>
      let t1 := t0 * 1000
      if t1 < 0 then Except.ok 0
      else if (INFINITE : ℚ) / 2 ≤ t1 then Except.error AcqErr.argumentOverflow
      else Except.ok (⌊t1 + 1 / 2⌋).toNat

/-! ## Helper lemmas -/

theorem release_ok_count (tid : ℤ) (w w2 : World)
    (h : semlockRelease tid w = Except.ok w2) :
    w2.lock.count = w.lock.count - 1 ∧
      (w.lock.kind = Kind.recursiveMutex → 0 < w.lock.count) := by
  unfold semlockRelease semPostDec at h
  split at h
  · rename_i hk
    split at h
    · exact absurd h (by simp)
    · rename_i hm
      split at h
      · cases h
        simp
        intro
        exact (not_not.mp hm).1
      · cases h
        simp
        intro
        exact (not_not.mp hm).1
  · rename_i hk
    split at h
    · exact absurd h (by simp)
    · cases h
      simp
      intro hkk
      exact absurd hkk hk

theorem acquireFinish_ok_count (tid : ℤ) (w : World) (res : OSRes) (b : Bool)
    (w2 : World) (h : acquireFinish tid w res = Except.ok (b, w2)) :
    w2.lock.count = w.lock.count + 1 ∨ w2 = w := by
  cases res with
  | acquired =>
    cases h
    left
    rfl
  | unavail =>
    cases h
    right
    rfl
  | eintrCancel => exact absurd h (by simp [acquireFinish])
  | fail => exact absurd h (by simp [acquireFinish])

theorem acquire_ok_count (blocking : Bool) (tmo : Option ℚ) (now : TV)
    (waitO : OSRes) (pa : ℕ → Bool) (pn : ℕ → TV) (ps : ℕ → Bool) (pf : ℕ)
    (tid : ℤ) (w : World) (b : Bool) (w2 : World)
    (h : semlockAcquire blocking tmo now waitO pa pn ps pf tid w = Except.ok (b, w2)) :
    w2.lock.count = w.lock.count + 1 ∨ w2 = w := by
  unfold semlockAcquire at h
  split at h
  · cases h
    left
    rfl
  · exact acquireFinish_ok_count tid w _ b w2 h

theorem acquireFinish_no_overflow (tid : ℤ) (w : World) :
    ∀ res : OSRes, acquireFinish tid w res ≠ Except.error AcqErr.argumentOverflow := by
  intro res
  cases res <;> simp [acquireFinish]

theorem acquire_no_overflow (blocking : Bool) (tmo : Option ℚ) (now : TV)
    (waitO : OSRes) (pa : ℕ → Bool) (pn : ℕ → TV) (ps : ℕ → Bool) (pf : ℕ)
    (tid : ℤ) (w : World) :
    semlockAcquire blocking tmo now waitO pa pn ps pf tid w ≠
      Except.error AcqErr.argumentOverflow := by
  unfold semlockAcquire
  split
  · simp
  · exact acquireFinish_no_overflow tid w _

theorem windowsComputeMsecs_overflow (t : ℚ)
    (ht : (INFINITE : ℚ) / 2 ≤ t * 1000) :
    windowsComputeMsecs true (some t) = Except.error AcqErr.argumentOverflow := by
  have hpos : ¬ (t * 1000 < 0) := by
    have h0 : (0 : ℚ) < (INFINITE : ℚ) / 2 := by norm_num [INFINITE]
    linarith
  simp [windowsComputeMsecs, hpos, ht]

theorem cappedDelay_le_20000 (delay diff : ℤ) : cappedDelay delay diff ≤ 20000 := by
  simp only [cappedDelay]
  split_ifs <;> omega

theorem cappedDelay_le_difference (delay diff : ℤ) :
    cappedDelay delay diff ≤ diff := by
  simp only [cappedDelay]
  split_ifs <;> omega

theorem cappedDelay_of_big_diff (delay diff : ℤ) (h : 20001 ≤ diff) :
    cappedDelay delay diff = min delay 20000 := by
  simp only [cappedDelay]
  split_ifs <;> omega

theorem twA_ok (avail : ℕ → Bool) (nowAt : ℕ → TV) (sig : ℕ → Bool) (dl : TV)
    (fuel k : ℕ) (delay : ℤ) (ha : avail k = true) :
    timedwaitAux avail nowAt sig dl (fuel + 1) k delay = (TWRes.ok, []) := by
  simp [timedwaitAux, ha]

theorem twA_timeout (avail : ℕ → Bool) (nowAt : ℕ → TV) (sig : ℕ → Bool) (dl : TV)
    (fuel k : ℕ) (delay : ℤ) (ha : avail k = false)
    (hdl : tvDeadlinePassed dl (nowAt k)) :
    timedwaitAux avail nowAt sig dl (fuel + 1) k delay = (TWRes.timedout, []) := by
  simp [timedwaitAux, ha, hdl]

theorem twA_sig (avail : ℕ → Bool) (nowAt : ℕ → TV) (sig : ℕ → Bool) (dl : TV)
    (fuel k : ℕ) (delay : ℤ) (ha : avail k = false)
    (hdl : ¬ tvDeadlinePassed dl (nowAt k)) (hs : sig k = true) :
    timedwaitAux avail nowAt sig dl (fuel + 1) k delay =
      (TWRes.interrupted, [cappedDelay delay (tvDifference dl (nowAt k))]) := by
  simp [timedwaitAux, ha, hdl, hs]

theorem twA_cons (avail : ℕ → Bool) (nowAt : ℕ → TV) (sig : ℕ → Bool) (dl : TV)
    (fuel k : ℕ) (delay : ℤ) (ha : avail k = false)
    (hdl : ¬ tvDeadlinePassed dl (nowAt k)) (hs : sig k = false) :
    timedwaitAux avail nowAt sig dl (fuel + 1) k delay =
      ((timedwaitAux avail nowAt sig dl fuel (k + 1)
          (cappedDelay delay (tvDifference dl (nowAt k)) + 1000)).1,
        cappedDelay delay (tvDifference dl (nowAt k)) ::
          (timedwaitAux avail nowAt sig dl fuel (k + 1)
            (cappedDelay delay (tvDifference dl (nowAt k)) + 1000)).2) := by
  simp [timedwaitAux, ha, hdl, hs]

theorem twA_sleep_bounds (avail : ℕ → Bool) (nowAt : ℕ → TV) (sig : ℕ → Bool)
    (dl : TV) :
    ∀ (fuel k : ℕ) (delay : ℤ) (i : ℕ),
      i < ((timedwaitAux avail nowAt sig dl fuel k delay).2).length →
      ((timedwaitAux avail nowAt sig dl fuel k delay).2).getD i 0 ≤ 20000 ∧
        ((timedwaitAux avail nowAt sig dl fuel k delay).2).getD i 0 ≤
          tvDifference dl (nowAt (k + i)) := by
  intro fuel
  induction fuel with
  | zero =>
    intro k delay i h
    simp [timedwaitAux] at h
  | succ n ih =>
    intro k delay i h
    by_cases ha : avail k
    · simp [timedwaitAux, ha] at h
    · by_cases hdl : tvDeadlinePassed dl (nowAt k)
      · simp [timedwaitAux, ha, hdl] at h
      · by_cases hs : sig k
        · rw [twA_sig avail nowAt sig dl n k delay (by simpa using ha) hdl hs] at h ⊢
          simp at h
          have hi : i = 0 := by omega
          subst hi
          simp
          exact ⟨cappedDelay_le_20000 _ _, cappedDelay_le_difference _ _⟩
        · rw [twA_cons avail nowAt sig dl n k delay (by simpa using ha) hdl
            (by simpa using hs)] at h ⊢
          cases i with
          | zero =>
            simp
            exact ⟨cappedDelay_le_20000 _ _, cappedDelay_le_difference _ _⟩
          | succ j =>
            simp only [List.length_cons] at h
            simp only [List.getD_cons_succ]
            have hkk : k + (j + 1) = (k + 1) + j := by omega
            rw [hkk]
            exact ih (k + 1) _ j (by omega)

theorem twA_linear (avail : ℕ → Bool) (nowAt : ℕ → TV) (sig : ℕ → Bool) (dl : TV)
    (ha : ∀ j, avail j = false) (hs : ∀ j, sig j = false)
    (hdl : ∀ j, ¬ tvDeadlinePassed dl (nowAt j))
    (hdiff : ∀ j, 20001 ≤ tvDifference dl (nowAt j)) :
    ∀ (fuel k : ℕ) (delay : ℤ) (i : ℕ),
      i < ((timedwaitAux avail nowAt sig dl fuel k delay).2).length →
      ((timedwaitAux avail nowAt sig dl fuel k delay).2).getD i 0 =
        min (delay + 1000 * i) 20000 := by
  intro fuel
  induction fuel with
  | zero =>
    intro k delay i h
    simp [timedwaitAux] at h
  | succ n ih =>
    intro k delay i h
    rw [twA_cons avail nowAt sig dl n k delay (ha k) (hdl k) (hs k)] at h ⊢
    rw [cappedDelay_of_big_diff delay _ (hdiff k)] at h ⊢
    cases i with
    | zero =>
      simp
    | succ j =>
      simp only [List.length_cons] at h
      simp only [List.getD_cons_succ]
      rw [ih (k + 1) _ j (by omega)]
      push_cast
      omega

theorem acquireTry_fast (h : ℕ) (tid c mv : ℤ) (nm : Option String) (v p : ℕ)
    (hc : 0 < c) :
    acquireTry tid ⟨⟨h, tid, c, mv, Kind.recursiveMutex, nm⟩, v, p⟩ =
      some ⟨⟨h, tid, c + 1, mv, Kind.recursiveMutex, nm⟩, v, p⟩ := by
  simp [acquireTry, semlockAcquire, isMine, hc]

theorem acquireTry_first (h : ℕ) (t0 tid mv : ℤ) (nm : Option String) (v p : ℕ)
    (hv : 0 < v) :
    acquireTry tid ⟨⟨h, t0, 0, mv, Kind.recursiveMutex, nm⟩, v, p⟩ =
      some ⟨⟨h, tid, 1, mv, Kind.recursiveMutex, nm⟩, v - 1, p⟩ := by
  simp [acquireTry, semlockAcquire, isMine, hv, acquireFinish]

theorem acquiresN_fast (h : ℕ) (tid mv : ℤ) (nm : Option String) (v p : ℕ) :
    ∀ (n : ℕ) (c : ℤ), 0 < c →
    acquiresN n tid ⟨⟨h, tid, c, mv, Kind.recursiveMutex, nm⟩, v, p⟩ =
      some ⟨⟨h, tid, c + n, mv, Kind.recursiveMutex, nm⟩, v, p⟩ := by
  intro n
  induction n with
  | zero =>
    intro c hc
    simp [acquiresN]
  | succ m ih =>
    intro c hc
    rw [acquiresN, acquireTry_fast h tid c mv nm v p hc]
    rw [Option.some_bind, ih (c + 1) (by omega)]
    have hcast : c + 1 + (m : ℤ) = c + ((m + 1 : ℕ) : ℤ) := by push_cast; ring
    rw [hcast]

theorem releasesN_rec (h : ℕ) (tid mv : ℤ) (nm : Option String) (v p : ℕ) :
    ∀ n : ℕ,
    releasesN (n + 1) tid ⟨⟨h, tid, (n : ℤ) + 1, mv, Kind.recursiveMutex, nm⟩, v, p⟩ =
      some ⟨⟨h, tid, 0, mv, Kind.recursiveMutex, nm⟩, v + 1, p + 1⟩ := by
  intro n
  induction n with
  | zero =>
    simp [releasesN, releaseO, semlockRelease, isMine, semPostDec]
  | succ m ih =>
    rw [releasesN]
    have hrel : releaseO tid ⟨⟨h, tid, ((m + 1 : ℕ) : ℤ) + 1, mv, Kind.recursiveMutex, nm⟩, v, p⟩ =
        some ⟨⟨h, tid, ((m + 1 : ℕ) : ℤ) + 1 - 1, mv, Kind.recursiveMutex, nm⟩, v, p⟩ := by
      have hm : isMine tid
          (⟨h, tid, ((m + 1 : ℕ) : ℤ) + 1, mv, Kind.recursiveMutex, nm⟩ : SemLock) :=
        ⟨by positivity, rfl⟩
      have hgt : (1 : ℤ) < ((m + 1 : ℕ) : ℤ) + 1 := by push_cast; omega
      simp only [releaseO, semlockRelease]
      rw [if_pos trivial, if_neg (not_not.mpr hm), if_pos hgt]
    rw [hrel, Option.some_bind]
    have hcast : ((m + 1 : ℕ) : ℤ) + 1 - 1 = ((m : ℕ) : ℤ) + 1 := by push_cast; ring
    rw [hcast, ih]

/-! ## Claim theorems -/

/-- Claim C1, refuted as stated: on a Semaphore-kind instance with local
`count = 0`, `maxvalue = 1` and kernel counter 0, `release` succeeds (the
guard only compares the kernel counter with `maxvalue`) and the
unconditional `--self->count` drives the local count to `-1 < 0`. -/
theorem C1_counterexample :
    semlockRelease 5 ⟨⟨0, 0, 0, 1, Kind.semaphore, none⟩, 0, 0⟩ =
      Except.ok ⟨⟨0, 0, -1, 1, Kind.semaphore, none⟩, 1, 1⟩ ∧ ((-1 : ℤ) < 0) :=
  ⟨rfl, by decide⟩

/-- Claim C1 (amended): `count` starts at 0 on creation/attach, and for
RecursiveMutex-kind instances acquire and release preserve
`count >= 0` (release demands ownership, hence `count > 0`, before
decrementing); for Semaphore-kind instances, however, every successful
release decrements `count` unconditionally, so the count can go
negative. -/
theorem C1_amended :
    (∀ (h : ℕ) (k : Kind) (mv : ℤ) (nm : Option String),
      (newsemlockobject h k mv nm).count = 0) ∧
    (∀ (blocking : Bool) (tmo : Option ℚ) (now : TV) (waitO : OSRes)
        (pa : ℕ → Bool) (pn : ℕ → TV) (ps : ℕ → Bool) (pf : ℕ)
        (tid : ℤ) (w : World) (b : Bool) (w2 : World),
      0 ≤ w.lock.count →
      semlockAcquire blocking tmo now waitO pa pn ps pf tid w = Except.ok (b, w2) →
      0 ≤ w2.lock.count) ∧
    (∀ (tid : ℤ) (w w2 : World),
      w.lock.kind = Kind.recursiveMutex → 0 ≤ w.lock.count →
      semlockRelease tid w = Except.ok w2 → 0 ≤ w2.lock.count) ∧
    (∀ (tid : ℤ) (w w2 : World),
      w.lock.kind = Kind.semaphore →
      semlockRelease tid w = Except.ok w2 → w2.lock.count = w.lock.count - 1) := by
  refine ⟨fun _ _ _ _ => rfl, ?_, ?_, ?_⟩
  · intro blocking tmo now waitO pa pn ps pf tid w b w2 hge h
    rcases acquire_ok_count blocking tmo now waitO pa pn ps pf tid w b w2 h with hc | hc
    · omega
    · rw [hc]
      exact hge
  · intro tid w w2 hk hge h
    rcases release_ok_count tid w w2 h with ⟨hc, hpos⟩
    have := hpos hk
    omega
  · intro tid w w2 _ h
    exact (release_ok_count tid w w2 h).1

/-- Claim C1 witness: a RecursiveMutex release by the owning thread at
`count = 1` keeps the count non-negative. -/
theorem C1_witness :
    (⟨⟨0, 7, 1, 1, Kind.recursiveMutex, none⟩, 0, 0⟩ : World).lock.kind =
      Kind.recursiveMutex ∧
    (0 : ℤ) ≤ (⟨⟨0, 7, 1, 1, Kind.recursiveMutex, none⟩, 0, 0⟩ : World).lock.count ∧
    semlockRelease 7 ⟨⟨0, 7, 1, 1, Kind.recursiveMutex, none⟩, 0, 0⟩ =
      Except.ok ⟨⟨0, 7, 0, 1, Kind.recursiveMutex, none⟩, 1, 1⟩ ∧
    (0 : ℤ) ≤ (⟨⟨0, 7, 0, 1, Kind.recursiveMutex, none⟩, 1, 1⟩ : World).lock.count :=
  ⟨rfl, by decide, rfl,
    C1_amended.2.2.1 7 ⟨⟨0, 7, 1, 1, Kind.recursiveMutex, none⟩, 0, 0⟩
      ⟨⟨0, 7, 0, 1, Kind.recursiveMutex, none⟩, 1, 1⟩ rfl (by decide) rfl⟩

/-- Claim C2, refuted as stated: a RecursiveMutex whose kernel counter
already equals `maxvalue` (1) is released from `count == 1` by its owner
— the claim demands the overflow guard fire with OverReleased before the
post, but the code posts unconditionally on this path, driving the
kernel counter to 2 > maxvalue. -/
theorem C2_counterexample :
    semlockRelease 7 ⟨⟨0, 7, 1, 1, Kind.recursiveMutex, none⟩, 1, 0⟩ =
      Except.ok ⟨⟨0, 7, 0, 1, Kind.recursiveMutex, none⟩, 2, 1⟩ ∧
    ¬ ((2 : ℤ) ≤ 1) :=
  ⟨rfl, by decide⟩

/-- Claim C2 (amended): the overflow guard runs only in the Semaphore
case — the `sem_getvalue` comparison refuses with OverReleased when the
kernel counter has reached `maxvalue`, and the broken-getvalue variant
does the same with a trywait/undo probe restricted to `maxvalue == 1` —
while the final recursive-release of a RecursiveMutex (`count == 1` by
its owner) issues the OS post with no overflow guard at all, in both
variants and whatever the kernel counter is. -/
theorem C2_amended :
    (∀ (tid : ℤ) (w : World), w.lock.kind = Kind.semaphore →
      w.lock.maxvalue ≤ (w.osValue : ℤ) →
      semlockRelease tid w = Except.error RelErr.overReleased) ∧
    (∀ (tid : ℤ) (w : World), w.lock.kind = Kind.semaphore →
      w.lock.maxvalue = 1 → 0 < w.osValue →
      semlockReleaseBrokenGV tid w = Except.error RelErr.overReleased) ∧
    (∀ (tid : ℤ) (w : World), w.lock.kind = Kind.recursiveMutex →
      isMine tid w.lock → w.lock.count = 1 →
      semlockRelease tid w = semPostDec w ∧
      semlockReleaseBrokenGV tid w = semPostDec w) := by
  refine ⟨?_, ?_, ?_⟩
  · intro tid w hk hge
    have hnk : ¬ w.lock.kind = Kind.recursiveMutex := by rw [hk]; simp
    simp [semlockRelease, hnk, hge]
  · intro tid w hk hmv hv
    have hnk : ¬ w.lock.kind = Kind.recursiveMutex := by rw [hk]; simp
    have hz : ¬ w.osValue = 0 := by omega
    simp [semlockReleaseBrokenGV, hnk, hmv, hz]
  · intro tid w hk hm hc
    have hnlt : ¬ 1 < w.lock.count := by omega
    constructor
    · simp [semlockRelease, hk, hm, hnlt]
    · simp [semlockReleaseBrokenGV, hk, hm, hnlt]

/-- Claim C2 witness: a Semaphore-kind release with the kernel counter
at `maxvalue` is refused with OverReleased. -/
theorem C2_witness :
    (⟨⟨0, 0, 0, 1, Kind.semaphore, none⟩, 1, 0⟩ : World).lock.kind =
      Kind.semaphore ∧
    (⟨⟨0, 0, 0, 1, Kind.semaphore, none⟩, 1, 0⟩ : World).lock.maxvalue ≤
      (((⟨⟨0, 0, 0, 1, Kind.semaphore, none⟩, 1, 0⟩ : World).osValue : ℕ) : ℤ) ∧
    semlockRelease 9 ⟨⟨0, 0, 0, 1, Kind.semaphore, none⟩, 1, 0⟩ =
      Except.error RelErr.overReleased :=
  ⟨rfl, by decide, C2_amended.1 9 _ rfl (by decide)⟩

/-- Claim C3, refuted as stated: with the semaphore never available, no
signal, and a far-away deadline, the recorded sleep durations of the
poll loop are 0, 1000, 2000, 3000, 4000 µs — an arithmetic progression
(step 1000 µs), not an exponentially increasing one: the middle term
squared differs from the product of its neighbours
(2000·2000 ≠ 1000·3000), so no geometric growth law fits. -/
theorem C3_counterexample :
    (timedwaitAux (fun _ => false) (fun _ => TV.mk 0 0) (fun _ => false)
        (TV.mk 100 0) 5 0 0).2 = [0, 1000, 2000, 3000, 4000] ∧
    (2000 : ℤ) * 2000 ≠ 1000 * 3000 :=
  ⟨rfl, by decide⟩

/-- Claim C3 (amended): the emulated timed wait is a poll loop that
(1) returns success as soon as a non-blocking try-acquire succeeds,
(2) returns timeout once the deadline has passed at a failed poll,
(3) returns the cancellation error when a signal arrived after a sleep,
(4) sleeps, on each failure, for a delay capped at 20000 µs (20 ms) and
further capped by the time remaining until the deadline, and
(5) grows the delay linearly — when neither cap binds, the i-th sleep
starting from delay `d` is `min (d + 1000·i) 20000` µs, i.e. 1 ms more
per failed attempt up to the 20 ms ceiling (not exponentially); and
(6) `Billiard_sem_timedwait_save` is this loop started at iteration 0
with delay 0 on the timeval-converted deadline. -/
theorem C3_amended :
    (∀ (avail : ℕ → Bool) (nowAt : ℕ → TV) (sig : ℕ → Bool) (dl : TV)
        (fuel k : ℕ) (delay : ℤ), avail k = true →
      timedwaitAux avail nowAt sig dl (fuel + 1) k delay = (TWRes.ok, [])) ∧
    (∀ (avail : ℕ → Bool) (nowAt : ℕ → TV) (sig : ℕ → Bool) (dl : TV)
        (fuel k : ℕ) (delay : ℤ), avail k = false →
      tvDeadlinePassed dl (nowAt k) →
      timedwaitAux avail nowAt sig dl (fuel + 1) k delay = (TWRes.timedout, [])) ∧
    (∀ (avail : ℕ → Bool) (nowAt : ℕ → TV) (sig : ℕ → Bool) (dl : TV)
        (fuel k : ℕ) (delay : ℤ), avail k = false →
      ¬ tvDeadlinePassed dl (nowAt k) → sig k = true →
      timedwaitAux avail nowAt sig dl (fuel + 1) k delay =
        (TWRes.interrupted, [cappedDelay delay (tvDifference dl (nowAt k))])) ∧
    (∀ (avail : ℕ → Bool) (nowAt : ℕ → TV) (sig : ℕ → Bool) (dl : TV)
        (fuel k : ℕ) (delay : ℤ) (i : ℕ),
      i < ((timedwaitAux avail nowAt sig dl fuel k delay).2).length →
      ((timedwaitAux avail nowAt sig dl fuel k delay).2).getD i 0 ≤ 20000 ∧
        ((timedwaitAux avail nowAt sig dl fuel k delay).2).getD i 0 ≤
          tvDifference dl (nowAt (k + i))) ∧
    (∀ (avail : ℕ → Bool) (nowAt : ℕ → TV) (sig : ℕ → Bool) (dl : TV),
      (∀ j, avail j = false) → (∀ j, sig j = false) →
      (∀ j, ¬ tvDeadlinePassed dl (nowAt j)) →
      (∀ j, 20001 ≤ tvDifference dl (nowAt j)) →
      ∀ (fuel k : ℕ) (delay : ℤ) (i : ℕ),
        i < ((timedwaitAux avail nowAt sig dl fuel k delay).2).length →
        ((timedwaitAux avail nowAt sig dl fuel k delay).2).getD i 0 =
          min (delay + 1000 * i) 20000) ∧
    (∀ (avail : ℕ → Bool) (nowAt : ℕ → TV) (sig : ℕ → Bool)
        (deadline : Timespec) (fuel : ℕ),
      sem_timedwait_save avail nowAt sig deadline fuel =
        timedwaitAux avail nowAt sig
          (TV.mk deadline.tv_sec (deadline.tv_nsec / 1000)) fuel 0 0) :=
  ⟨twA_ok, twA_timeout, twA_sig, twA_sleep_bounds,
    fun avail nowAt sig dl ha hs hdl hdiff =>
      twA_linear avail nowAt sig dl ha hs hdl hdiff,
    fun _ _ _ _ _ => rfl⟩

/-- Claim C3 witness: a failed poll past the deadline reports timeout. -/
theorem C3_witness :
    ((fun _ : ℕ => false) 0 = false) ∧
    tvDeadlinePassed (TV.mk (-1) 0) ((fun _ : ℕ => TV.mk 0 0) 0) ∧
    timedwaitAux (fun _ => false) (fun _ => TV.mk 0 0) (fun _ => false)
        (TV.mk (-1) 0) 1 0 0 = (TWRes.timedout, []) :=
  ⟨rfl, by decide, C3_amended.2.1 (fun _ => false) (fun _ => TV.mk 0 0)
    (fun _ => false) (TV.mk (-1) 0) 0 0 0 rfl (by decide)⟩

set_option maxRecDepth 8000 in
/-- Claim C4, refuted as stated: on the Unix path an acquire with the
absurd timeout of 2^63 seconds raises no overflow error at all — the
double→long cast wraps, the computed deadline lands 2^63 seconds in the
past, and the poll loop immediately reports a timeout, so the call
returns `False` instead of failing with ArgumentOverflow. -/
theorem C4_counterexample :
    unixComputeDeadline (2 ^ 63) (TV.mk 0 0) = Timespec.mk (-(2 ^ 63)) 0 ∧
    semlockAcquire true (some (2 ^ 63)) (TV.mk 0 0) OSRes.fail (fun _ => false)
        (fun _ => TV.mk 0 0) (fun _ => false) 1 5
        ⟨⟨0, 0, 0, 1, Kind.semaphore, none⟩, 0, 0⟩ =
      Except.ok (false, ⟨⟨0, 0, 0, 1, Kind.semaphore, none⟩, 0, 0⟩) := by
  have hfl : (⌊(2 ^ 63 : ℚ)⌋ : ℤ) = 2 ^ 63 := by norm_num
  have hsec : toLong ⌊(2 ^ 63 : ℚ)⌋ = -(2 ^ 63) := by
    rw [hfl]
    norm_num [toLong]
  have hd : unixComputeDeadline (2 ^ 63) (TV.mk 0 0) = Timespec.mk (-(2 ^ 63)) 0 := by
    simp only [unixComputeDeadline]
    rw [if_neg (by norm_num)]
    rw [hsec]
    have hn : (⌊(1000000000 : ℚ) * ((2 ^ 63 : ℚ) - ((-(2 ^ 63) : ℤ) : ℚ)) + 1 / 2⌋ : ℤ) =
        1000000000 * 2 ^ 64 := by
      norm_num
    rw [hn]
    have hnl : toLong (1000000000 * 2 ^ 64) = 0 := by norm_num [toLong]
    rw [hnl]
    norm_num
  refine ⟨hd, ?_⟩
  unfold semlockAcquire
  rw [if_neg (by simp [isMine])]
  simp only [hd]
  rfl

/-- Claim C4 (amended): only the Windows path guards the timeout — a
blocking acquire whose millisecond value reaches `0.5 * INFINITE`
(≈ 25 days) fails with the overflow error before any wait; the Unix
acquire never returns ArgumentOverflow for any argument whatsoever (the
path has no overflow test, and an overflowing timeout wraps silently in
the deadline computation). -/
theorem C4_amended :
    (∀ t : ℚ, (INFINITE : ℚ) / 2 ≤ t * 1000 →
      windowsComputeMsecs true (some t) = Except.error AcqErr.argumentOverflow) ∧
    (∀ (blocking : Bool) (tmo : Option ℚ) (now : TV) (waitO : OSRes)
        (pa : ℕ → Bool) (pn : ℕ → TV) (ps : ℕ → Bool) (pf : ℕ)
        (tid : ℤ) (w : World),
      semlockAcquire blocking tmo now waitO pa pn ps pf tid w ≠
        Except.error AcqErr.argumentOverflow) :=
  ⟨windowsComputeMsecs_overflow, acquire_no_overflow⟩

/-- Claim C4 witness: a 10^7-second timeout trips the Windows overflow
guard. -/
theorem C4_witness :
    (INFINITE : ℚ) / 2 ≤ (10000000 : ℚ) * 1000 ∧
    windowsComputeMsecs true (some 10000000) =
      Except.error AcqErr.argumentOverflow :=
  ⟨by norm_num [INFINITE], C4_amended.1 10000000 (by norm_num [INFINITE])⟩

/-- Claim C5: releasing a RecursiveMutex-kind instance from a thread
that does not own it (`count == 0`, or a different `last_tid`) fails
with the ownership error in both release variants; since the functions
return an error and no new world, neither the record nor the kernel
semaphore is touched and no post is issued. -/
theorem C5_confirmed : ∀ (tid : ℤ) (w : World),
    w.lock.kind = Kind.recursiveMutex → ¬ isMine tid w.lock →
    semlockRelease tid w = Except.error RelErr.ownershipError ∧
      semlockReleaseBrokenGV tid w = Except.error RelErr.ownershipError := by
  intro tid w hk hm
  constructor
  · simp [semlockRelease, hk, hm]
  · simp [semlockReleaseBrokenGV, hk, hm]

/-- Claim C5 witness: a thread that never acquired the mutex gets the
ownership error. -/
theorem C5_witness :
    (⟨⟨0, 1, 0, 1, Kind.recursiveMutex, none⟩, 1, 0⟩ : World).lock.kind =
      Kind.recursiveMutex ∧
    ¬ isMine 3 (⟨⟨0, 1, 0, 1, Kind.recursiveMutex, none⟩, 1, 0⟩ : World).lock ∧
    semlockRelease 3 ⟨⟨0, 1, 0, 1, Kind.recursiveMutex, none⟩, 1, 0⟩ =
      Except.error RelErr.ownershipError ∧
    semlockReleaseBrokenGV 3 ⟨⟨0, 1, 0, 1, Kind.recursiveMutex, none⟩, 1, 0⟩ =
      Except.error RelErr.ownershipError :=
  ⟨rfl, by decide, (C5_confirmed 3 _ rfl (by decide)).1,
    (C5_confirmed 3 _ rfl (by decide)).2⟩

/-- Claim C6: recursion round trip.  From a fresh RecursiveMutex world
(count 0, kernel counter `v ≥ 1`), `n + 1` non-blocking acquires by one
thread all succeed — the first consumes one kernel unit, the other `n`
take the fast path (count goes to `n + 1`, the kernel counter drops by
exactly one, no post happens) — and the matching `n + 1` releases bring
the count back to 0 while posting the kernel semaphore exactly once
(posts go from `p` to `p + 1`, the kernel counter returns to `v`). -/
theorem C6_confirmed :
    ∀ (n : ℕ) (handle : ℕ) (t0 tid mv : ℤ) (nm : Option String) (v p : ℕ),
      1 ≤ v →
      acquiresN (n + 1) tid ⟨⟨handle, t0, 0, mv, Kind.recursiveMutex, nm⟩, v, p⟩ =
        some ⟨⟨handle, tid, ((n + 1 : ℕ) : ℤ), mv, Kind.recursiveMutex, nm⟩, v - 1, p⟩ ∧
      (acquiresN (n + 1) tid ⟨⟨handle, t0, 0, mv, Kind.recursiveMutex, nm⟩, v, p⟩).bind
          (releasesN (n + 1) tid) =
        some ⟨⟨handle, tid, 0, mv, Kind.recursiveMutex, nm⟩, v, p + 1⟩ := by
  intro n handle t0 tid mv nm v p hv
  have hacq : acquiresN (n + 1) tid ⟨⟨handle, t0, 0, mv, Kind.recursiveMutex, nm⟩, v, p⟩ =
      some ⟨⟨handle, tid, ((n + 1 : ℕ) : ℤ), mv, Kind.recursiveMutex, nm⟩, v - 1, p⟩ := by
    rw [acquiresN, acquireTry_first handle t0 tid mv nm v p (by omega), Option.some_bind]
    rw [acquiresN_fast handle tid mv nm (v - 1) p n 1 (by omega)]
    have hcast : (1 : ℤ) + (n : ℤ) = ((n + 1 : ℕ) : ℤ) := by push_cast; ring
    rw [hcast]
  refine ⟨hacq, ?_⟩
  rw [hacq, Option.some_bind]
  have hcast2 : ((n + 1 : ℕ) : ℤ) = (n : ℤ) + 1 := by push_cast; ring
  rw [hcast2, releasesN_rec handle tid mv nm (v - 1) p n]
  have hvv : v - 1 + 1 = v := by omega
  rw [hvv]

/-- Claim C6 witness: two acquires then two releases on a fresh binary
RecursiveMutex (kernel counter 1) end with count 0 and exactly one
post. -/
theorem C6_witness :
    1 ≤ 1 ∧
    acquiresN 2 7 ⟨⟨0, 3, 0, 1, Kind.recursiveMutex, none⟩, 1, 0⟩ =
      some ⟨⟨0, 7, 2, 1, Kind.recursiveMutex, none⟩, 0, 0⟩ ∧
    (acquiresN 2 7 ⟨⟨0, 3, 0, 1, Kind.recursiveMutex, none⟩, 1, 0⟩).bind
        (releasesN 2 7) =
      some ⟨⟨0, 7, 0, 1, Kind.recursiveMutex, none⟩, 1, 1⟩ :=
  ⟨le_refl 1, (C6_confirmed 1 0 3 7 1 none 1 0 (by decide)).1,
    (C6_confirmed 1 0 3 7 1 none 1 0 (by decide)).2⟩

/-- Claim C7: `afterFork` resets the local count to 0 and changes
nothing else — handle, kind, maxvalue, name, the recorded thread id,
the kernel counter and the post count are untouched — and the count
introspection then reports 0. -/
theorem C7_confirmed : ∀ w : World,
    (semlockAfterfork w).lock.count = 0 ∧
    (semlockAfterfork w).lock.handle = w.lock.handle ∧
    (semlockAfterfork w).lock.kind = w.lock.kind ∧
    (semlockAfterfork w).lock.maxvalue = w.lock.maxvalue ∧
    (semlockAfterfork w).lock.name = w.lock.name ∧
    (semlockAfterfork w).lock.last_tid = w.lock.last_tid ∧
    (semlockAfterfork w).osValue = w.osValue ∧
    (semlockAfterfork w).posts = w.posts ∧
    semlockCount (semlockAfterfork w).lock = 0 := by
  intro w
  exact ⟨rfl, rfl, rfl, rfl, rfl, rfl, rfl, rfl, rfl⟩

/-- Claim C8: every record built by `Billiard_newsemlockobject` — hence
every rebuilt/attached instance — starts with `count = 0` and
`last_tid = 0`, so no thread owns it and the count introspection
reports 0, whatever the kernel object's actual state. -/
theorem C8_confirmed :
    (∀ (h : ℕ) (k : Kind) (mv : ℤ) (nm : Option String),
      (newsemlockobject h k mv nm).count = 0 ∧
      (newsemlockobject h k mv nm).last_tid = 0 ∧
      (∀ tid : ℤ, ¬ isMine tid (newsemlockobject h k mv nm)) ∧
      semlockCount (newsemlockobject h k mv nm) = 0) ∧
    (∀ (so : String → Option ℕ) (h : ℕ) (k : Kind) (mv : ℤ)
        (nm : Option String) (sl : SemLock),
      semlockRebuild so h k mv nm = some sl →
      sl.count = 0 ∧ sl.last_tid = 0 ∧ (∀ tid : ℤ, ¬ isMine tid sl) ∧
        semlockCount sl = 0) := by
  constructor
  · intro h k mv nm
    refine ⟨rfl, rfl, ?_, rfl⟩
    intro tid hm
    rcases hm with ⟨hc, -⟩
    simp [newsemlockobject] at hc
  · intro so h k mv nm sl hsl
    have hco : sl.count = 0 ∧ sl.last_tid = 0 := by
      cases nm with
      | none =>
        simp [semlockRebuild] at hsl
        rw [← hsl]
        exact ⟨rfl, rfl⟩
      | some s =>
        cases hop : so s with
        | none => simp [semlockRebuild, hop] at hsl
        | some hh =>
          simp [semlockRebuild, hop] at hsl
          rw [← hsl]
          exact ⟨rfl, rfl⟩
    refine ⟨hco.1, hco.2, ?_, hco.1⟩
    intro tid hm
    rcases hm with ⟨hc, -⟩
    omega

/-- Claim C8 witness: rebuilding by name through a successful re-open
yields a record with count 0 that no thread owns. -/
theorem C8_witness :
    semlockRebuild (fun _ => some 4) 0 Kind.semaphore 3 (some "x") =
      some (newsemlockobject 4 Kind.semaphore 3 (some "x")) ∧
    (newsemlockobject 4 Kind.semaphore 3 (some "x")).count = 0 ∧
    (newsemlockobject 4 Kind.semaphore 3 (some "x")).last_tid = 0 ∧
    ¬ isMine 9 (newsemlockobject 4 Kind.semaphore 3 (some "x")) ∧
    semlockCount (newsemlockobject 4 Kind.semaphore 3 (some "x")) = 0 := by
  have h := C8_confirmed.2 (fun _ => some 4) 0 Kind.semaphore 3 (some "x")
    (newsemlockobject 4 Kind.semaphore 3 (some "x")) rfl
  exact ⟨rfl, h.1, h.2.1, h.2.2.1 9, h.2.2.2⟩

/-- Claim C9: the value query never returns a negative number — every
successful result is non-negative, and a negative platform report is
clamped to 0. -/
theorem C9_confirmed :
    (∀ (gv : Option ℤ) (v : ℤ), semlockGetvalue gv = Except.ok v → 0 ≤ v) ∧
    (∀ s : ℤ, s < 0 → semlockGetvalue (some s) = Except.ok 0) := by
  constructor
  · intro gv v h
    cases gv with
    | none => simp [semlockGetvalue] at h
    | some s =>
      simp [semlockGetvalue] at h
      subst h
      split <;> omega
  · intro s hs
    simp [semlockGetvalue, hs]

/-- Claim C9 witness: a platform report of -3 comes back as 0. -/
theorem C9_witness :
    ((-3 : ℤ) < 0) ∧ semlockGetvalue (some (-3)) = Except.ok 0 :=
  ⟨by decide, C9_confirmed.2 (-3) (by decide)⟩

/-- Claim C10: with `block = False` the timeout argument has no effect —
for any two timeout values (including none) the acquire performs the
same single non-blocking try-acquire and produces identical results from
identical states, whatever the oracles report. -/
theorem C10_confirmed : ∀ (to1 to2 : Option ℚ) (now : TV) (waitO : OSRes)
    (pa : ℕ → Bool) (pn : ℕ → TV) (ps : ℕ → Bool) (pf : ℕ) (tid : ℤ) (w : World),
    semlockAcquire false to1 now waitO pa pn ps pf tid w =
      semlockAcquire false to2 now waitO pa pn ps pf tid w := by
  intro to1 to2 now waitO pa pn ps pf tid w
  rfl

end Billiard
